import Mathlib

/-!
Verification of the request-time data-binding and validation pipeline
specified for the fast-api-tutorial repository.

The repository's example scripts delegate binding, validation, response
shaping and dependency resolution to the web framework, so the pipeline
itself does not appear under the repository's own sources; the
specification describes it abstractly (schema model, request binder,
response shaper, resolver graph).  The definitions below embed that
pipeline, together with the concrete schemas, handlers and dependency
functions that do appear in the example scripts
(`16-body_updates.py`, `app/main.py`, `app/dependencies.py`,
`app/routers/items.py`, `app/routers/users.py`).
-/

/-- Modelled from the spec: a language-neutral structured value
(mapping/sequence/scalar tree) as produced by binding and consumed by
shaping.  Lists and sets of strings are the only compound shapes the
examples exercise, so sequences carry strings. -/
inductive JVal where
  | null
  | bool (b : Bool)
  | int (n : Int)
  | num (q : ℚ)
  | str (s : String)
  | strList (xs : List String)
  deriving Repr, DecidableEq

/-- Modelled from the spec: the source of a declared field
(path, query, header or cookie; body-sourced fields are not needed by
the properties checked here). -/
inductive Source where
  | path
  | query
  | header
  | cookie
  deriving Repr, DecidableEq

/-- Modelled from the spec: the semantic type of a declared field. -/
inductive SemTy where
  | string
  | integer
  | boolean
  | listOfString
  | setOfString
  deriving Repr, DecidableEq

/-- Modelled from the spec: per-field constraints (string length bounds
and numeric bounds, inclusive and exclusive). -/
structure Constraints where
  minLength : Option Nat
  maxLength : Option Nat
  geBound : Option Int
  gtBound : Option Int
  leBound : Option Int
  ltBound : Option Int
  deriving Repr, DecidableEq

/-- A `Constraints` record imposing no constraint. -/
def noConstraints : Constraints := ⟨none, none, none, none, none, none⟩

/-- Modelled from the spec: `FieldSpec` describes one declared input
field: wire name, source, semantic type, requiredness, optional default
and constraints.  `convertUnderscores` is the per-field switch that
disables the underscore-to-hyphen wire-name conversion for header
fields. -/
structure FieldSpec where
  name : String
  source : Source
  semanticType : SemTy
  required : Bool
  default : Option JVal
  constraints : Constraints
  convertUnderscores : Bool
  deriving Repr, DecidableEq

/-- Modelled from the spec: `RawRequest` carries the incoming request's
path-segment values, query string (ordered multi-map, a key may
repeat), header multi-map and cookie map. -/
structure RawRequest where
  pathParams : List (String × String)
  queryParams : List (String × String)
  headers : List (String × String)
  cookies : List (String × String)
  deriving Repr, DecidableEq

/-- Modelled from the spec: the error taxonomy of the pipeline. -/
inductive ErrKind where
  | MISSING
  | TYPE_ERROR
  | RANGE_ERROR
  | PATTERN_ERROR
  | UNSUPPORTED_MEDIA_TYPE
  deriving Repr, DecidableEq

/-- Modelled from the spec: one validation failure: the dotted path to
the offending field, a kind, and a human-readable message. -/
structure ValidationError where
  path : String
  kind : ErrKind
  msg : String
  deriving Repr, DecidableEq

/-- Modelled from the spec: the bound result for one field: either the
explicit absent marker (not to be confused with an empty string) or a
coerced value. -/
inductive Bound where
  | absent
  | val (v : JVal)
  deriving Repr, DecidableEq

/-- ASCII-insensitive lowering of a string, character by character. -/
def lowerStr (s : String) : String := String.mk (s.data.map Char.toLower)

/-- Replaces every underscore of a declared name by a hyphen, giving
the default wire name of a header field. -/
def hyphenate (s : String) : String :=
  String.mk (s.data.map (fun c => if c = '_' then '-' else c))

/-- The wire name a header-sourced field matches against: the declared
name with underscores mapped to hyphens, unless that conversion is
disabled for the field. -/
def wireName (f : FieldSpec) : String :=
  if f.convertUnderscores then hyphenate f.name else f.name

/-- Modelled from the spec: extraction of the raw textual value(s) of a
field from its declared source.  Path, query and cookie keys match
exactly; header keys match case-insensitively against the field's wire
name. -/
def extractRaw (f : FieldSpec) (req : RawRequest) : List String :=
  match f.source with
  | .path => (req.pathParams.filter (fun kv => kv.1 == f.name)).map Prod.snd
  | .query => (req.queryParams.filter (fun kv => kv.1 == f.name)).map Prod.snd
  | .header =>
      (req.headers.filter (fun kv => lowerStr kv.1 == lowerStr (wireName f))).map Prod.snd
  | .cookie => (req.cookies.filter (fun kv => kv.1 == f.name)).map Prod.snd

/-- Value of a decimal digit character, if it is one. -/
def digitVal (c : Char) : Option Nat :=
  if '0' ≤ c ∧ c ≤ '9' then some (c.toNat - 48) else none

/-- Parses a non-empty run of decimal digits to a natural number. -/
def parseDigits (ds : List Char) : Option Nat :=
  if ds.isEmpty then none
  else ds.foldl (fun acc c => acc.bind (fun n => (digitVal c).map (fun d => 10 * n + d))) (some 0)

/-- Modelled from the spec: integer coercion with standard numeric
literal rules (optional leading minus sign followed by decimal digits);
non-numeric text fails. -/
def parseInt (s : String) : Option Int :=
  match s.data with
  | [] => none
  | '-' :: ds => (parseDigits ds).map (fun n => -(n : Int))
  | ds => (parseDigits ds).map (fun n => (n : Int))

/-- The fixed vocabulary of texts binding to `true` for boolean fields
(compared after lowering). -/
def trueWords : List String := ["true", "1", "yes", "on"]

/-- The fixed vocabulary of texts binding to `false` for boolean fields
(compared after lowering). -/
def falseWords : List String := ["false", "0", "no", "off"]

/-- Modelled from the spec: boolean coercion accepts a fixed
case-insensitive vocabulary and rejects anything else. -/
def parseBool (s : String) : Option Bool :=
  if trueWords.contains (lowerStr s) then some true
  else if falseWords.contains (lowerStr s) then some false
  else none

/-- Modelled from the spec: constraint checking after successful
coercion: string length bounds apply to strings, numeric bounds
(inclusive and exclusive per declaration) apply to integers; any
violation is a `RANGE_ERROR` for the field's path. -/
def checkConstraints (f : FieldSpec) (v : JVal) : List ValidationError :=
  match v with
  | .str s =>
      (match f.constraints.minLength with
       | some m =>
           if s.data.length < m then
             [⟨f.name, .RANGE_ERROR, "ensure this value has at least " ++ toString m ++ " characters"⟩]
           else []
       | none => []) ++
      (match f.constraints.maxLength with
       | some m =>
           if m < s.data.length then
             [⟨f.name, .RANGE_ERROR, "ensure this value has at most " ++ toString m ++ " characters"⟩]
           else []
       | none => [])
  | .int n =>
      (match f.constraints.geBound with
       | some b => if n < b then [⟨f.name, .RANGE_ERROR, "ensure this value is greater than or equal to " ++ toString b⟩] else []
       | none => []) ++
      (match f.constraints.gtBound with
       | some b => if n ≤ b then [⟨f.name, .RANGE_ERROR, "ensure this value is greater than " ++ toString b⟩] else []
       | none => []) ++
      (match f.constraints.leBound with
       | some b => if b < n then [⟨f.name, .RANGE_ERROR, "ensure this value is less than or equal to " ++ toString b⟩] else []
       | none => []) ++
      (match f.constraints.ltBound with
       | some b => if b ≤ n then [⟨f.name, .RANGE_ERROR, "ensure this value is less than " ++ toString b⟩] else []
       | none => [])
  | _ => []

/-- Modelled from the spec: coercion of the extracted textual values
of a present field to its semantic type: integers and booleans parse
per their rules and fail with `TYPE_ERROR` otherwise; lists wrap a
single value or collect every repeated value in appearance order;
sets additionally de-duplicate by value equality. -/
def coerceVals (f : FieldSpec) (v : String) (rest : List String) :
    Except (List ValidationError) JVal :=
  match f.semanticType with
  | .string => .ok (.str v)
  | .integer =>
      match parseInt v with
      | some n => .ok (.int n)
      | none => .error [⟨f.name, .TYPE_ERROR, "value is not a valid integer"⟩]
  | .boolean =>
      match parseBool v with
      | some b => .ok (.bool b)
      | none => .error [⟨f.name, .TYPE_ERROR, "value could not be parsed to a boolean"⟩]
  | .listOfString => .ok (.strList (v :: rest))
  | .setOfString => .ok (.strList (v :: rest).dedup)

/-- Modelled from the spec: binding of a single field, continued: the
extracted values are coerced and then checked against the constraints;
an absent field uses the default, or yields `MISSING` when the field
is required with no default, or binds to the explicit absent marker.
The first component carries every error of this field, the second the
bound value when there is no error. -/
def bindField (f : FieldSpec) (req : RawRequest) : List ValidationError × Bound :=
  match extractRaw f req with
  | [] =>
      match f.default with
      | some d => ([], .val d)
      | none =>
          if f.required then ([⟨f.name, .MISSING, "field required"⟩], .absent)
          else ([], .absent)
  | v :: rest =>
      match coerceVals f v rest with
      | .error es => (es, .absent)
      | .ok jv =>
          match checkConstraints f jv with
          | [] => ([], .val jv)
          | e :: es => (e :: es, .absent)

/-- The field-level errors of one field of a request. -/
def fieldErrors (f : FieldSpec) (req : RawRequest) : List ValidationError :=
  (bindField f req).1

/-- Modelled from the spec: `bind(schema, rawRequest)`.  Every field is
bound independently of the others; every field-level error from every
field is collected (not just the first); the non-empty ordered error
list is returned if any exist, else the fully populated bound tree. -/
def bindRequest (schema : List FieldSpec) (req : RawRequest) :
    Except (List ValidationError) (List (String × Bound)) :=
  let errs := (schema.map (fun f => fieldErrors f req)).flatten
  if errs.isEmpty then .ok (schema.map (fun f => (f.name, (bindField f req).2)))
  else .error errs

/-- Modelled from the spec: one field of a typed value produced by a
handler, carrying the per-field "was this explicitly provided" flag
that exclude-unset shaping relies on. -/
structure FieldVal where
  name : String
  val : JVal
  explicitlySet : Bool
  deriving Repr, DecidableEq

/-- Modelled from the spec: the shaping policy: include-all (default),
include-only(set of names), exclude(set of names), or exclude-unset. -/
inductive Policy where
  | includeAll
  | includeOnly (names : List String)
  | excludeNames (names : List String)
  | excludeUnset
  deriving Repr, DecidableEq

/-- Modelled from the spec: `ResponseShape` lists the declared output
field names that govern what shaping may emit. -/
structure ResponseShape where
  fields : List String
  deriving Repr, DecidableEq

/-- Whether a policy keeps a given field of the value. -/
def keepField (p : Policy) (fv : FieldVal) : Bool :=
  match p with
  | .includeAll => true
  | .includeOnly names => names.contains fv.name
  | .excludeNames names => !(names.contains fv.name)
  | .excludeUnset => fv.explicitlySet

/-- Modelled from the spec: `shape(responseShape, value, policy)`
filters the value's fields down to those declared by the shape and
kept by the policy, emitting each under its declared name; shaping
only filters, it invents and renames nothing. -/
def shape (rs : ResponseShape) (v : List FieldVal) (p : Policy) : List (String × JVal) :=
  ((v.filter (fun fv => rs.fields.contains fv.name)).filter (keepField p)).map
    (fun fv => (fv.name, fv.val))

/-- Modelled from the spec: a resolver node of the per-request
dependency graph: an identifier and the identifiers of its declared
dependencies. -/
structure Resolver where
  rid : Nat
  deps : List Nat
  deriving Repr, DecidableEq

/-- An observable event of one request's resolver execution. -/
inductive Event where
  | resolve (id : Nat)
  | handlerRun
  | handlerFailed
  | release (id : Nat)
  deriving Repr, DecidableEq

/-- Execution state of one request's resolver graph: the cache of
already-resolved node identifiers (most recent first, so it records
reverse acquisition order) and the event trace so far. -/
structure ExecState where
  cache : List Nat
  trace : List Event
  deriving Repr, DecidableEq

/-- Modelled from the spec: resolution of one node for one request.  A
node already in the request's cache is reused, not recomputed; an
uncached node first resolves all of its declared dependencies and only
then resolves itself, entering the cache.  Recursion is bounded by
fuel, which a construction-time acyclicity check makes sufficient. -/
def resolveNode (graph : List Resolver) : Nat → Nat → ExecState → ExecState
  | 0, _, st => st
  | fuel + 1, i, st =>
      if st.cache.contains i then st
      else
        let ds := ((graph.find? (fun r => r.rid == i)).map Resolver.deps).getD []
        let st1 := ds.foldl (fun s d => resolveNode graph fuel d s) st
        if st1.cache.contains i then st1
        else ⟨i :: st1.cache, st1.trace ++ [Event.resolve i]⟩

/-- Modelled from the spec: one request against a resolver graph: the
handler's required root nodes are resolved in dependency order, the
handler runs (succeeding or failing), and every resolved node's release
step then runs in reverse acquisition order on every exit path. -/
def runRequest (graph : List Resolver) (roots : List Nat) (handlerOk : Bool) : List Event :=
  let st := roots.foldl (fun s d => resolveNode graph (graph.length + 1) d s) ⟨[], []⟩
  st.trace ++ [if handlerOk then Event.handlerRun else Event.handlerFailed] ++
    (st.cache.map Event.release)

namespace BodyUpdates

/-- Embeds the `Item` model of `16-body_updates.py`: every field
optional, `tax` defaulting to `10.5` and `tags` to the empty list. -/
structure Item where
  name : Option String
  description : Option String
  price : Option ℚ
  tax : ℚ
  tags : List String
  deriving Repr, DecidableEq

/-- The names of the fields of `Item`. -/
inductive ItemField where
  | nameF
  | descriptionF
  | priceF
  | taxF
  | tagsF
  deriving Repr, DecidableEq

/-- Reads one field of an `Item` as a structured value
(an unset optional field reads as `null`, as in its JSON encoding). -/
def Item.get : Item → ItemField → JVal
  | it, .nameF => match it.name with | some s => .str s | none => .null
  | it, .descriptionF => match it.description with | some s => .str s | none => .null
  | it, .priceF => match it.price with | some q => .num q | none => .null
  | it, .taxF => .num it.tax
  | it, .tagsF => .strList it.tags

/-- Embeds a request body parsed into the `Item` model together with
the set of fields the request explicitly provided (the information
`item.dict(exclude_unset=True)` extracts in the source). -/
structure RequestItem where
  item : Item
  fieldsSet : List ItemField
  deriving Repr, DecidableEq

/-- Embeds `stored_item_model.copy(update=update_data)` of
`16-body_updates.py` where `update_data = item.dict(exclude_unset=True)`:
each explicitly provided field takes the request's value, every other
field keeps the stored value. -/
def copyUpdate (stored : Item) (r : RequestItem) : Item :=
  ⟨if r.fieldsSet.contains .nameF then r.item.name else stored.name,
   if r.fieldsSet.contains .descriptionF then r.item.description else stored.description,
   if r.fieldsSet.contains .priceF then r.item.price else stored.price,
   if r.fieldsSet.contains .taxF then r.item.tax else stored.tax,
   if r.fieldsSet.contains .tagsF then r.item.tags else stored.tags⟩

/-- Embeds `Item(**stored_item_data)`: parsing a stored JSON-like dict
into the `Item` model, absent fields taking the declared defaults. -/
def Item.ofDict (d : List (String × JVal)) : Item :=
  ⟨(match d.lookup "name" with | some (.str s) => some s | _ => none),
   (match d.lookup "description" with | some (.str s) => some s | _ => none),
   (match d.lookup "price" with
    | some (.num q) => some q
    | some (.int n) => some (n : ℚ)
    | _ => none),
   (match d.lookup "tax" with
    | some (.num q) => q
    | some (.int n) => (n : ℚ)
    | _ => 10.5),
   (match d.lookup "tags" with | some (.strList xs) => xs | _ => [])⟩

/-- Embeds `jsonable_encoder(updated_item)`: the JSON-compatible dict
of an `Item`. -/
def Item.toDict (it : Item) : List (String × JVal) :=
  [("name", it.get .nameF),
   ("description", it.get .descriptionF),
   ("price", it.get .priceF),
   ("tax", .num it.tax),
   ("tags", .strList it.tags)]

/-- Embeds the Python dict assignment `items[item_id] = v`: the value
stored under an existing key is replaced in place, a new key is
appended. -/
def storeSet (items : List (String × List (String × JVal))) (k : String)
    (v : List (String × JVal)) : List (String × List (String × JVal)) :=
  if (items.lookup k).isSome then
    items.map (fun p => if p.1 = k then (k, v) else p)
  else items ++ [(k, v)]

/-- Embeds the PATCH handler `update_item` of `16-body_updates.py`:
retrieve the stored data (a missing key raises, modelled as `none`),
parse it into the model, apply the explicitly provided fields of the
request on top, store the JSON encoding of the result and return it. -/
def update_item (items : List (String × List (String × JVal))) (item_id : String)
    (item : RequestItem) :
    Option (List (String × List (String × JVal)) × Item) :=
  match items.lookup item_id with
  | none => none
  | some stored_item_data =>
      let stored_item_model := Item.ofDict stored_item_data
      let updated_item := copyUpdate stored_item_model item
      some (storeSet items item_id updated_item.toDict, updated_item)

/-- Embeds the module-level `items` store of `16-body_updates.py`. -/
def itemsDB : List (String × List (String × JVal)) :=
  [("foo", [("name", .str "Foo"), ("price", .num 50.2)]),
   ("bar", [("name", .str "Bar"), ("description", .str "The bartenders"),
            ("price", .int 62), ("tax", .num 20.2)]),
   ("baz", [("name", .str "Baz"), ("description", .null), ("price", .num 50.2),
            ("tax", .num 10.5), ("tags", .strList [])])]

end BodyUpdates

namespace BiggerApp

/-- Embeds `get_query_token` of `app/dependencies.py`: any token other
than "jessica" raises a 400 with detail "No Jessica token provided". -/
def get_query_token (token : String) : Option (Nat × String) :=
  if token ≠ "jessica" then some (400, "No Jessica token provided") else none

/-- Embeds `get_token_header` of `app/dependencies.py`: any `X-Token`
header other than the fixed secret raises a 400. -/
def get_token_header (x_token : String) : Option (Nat × String) :=
  if x_token ≠ "fake-super-secret-token" then some (400, "X-Token header invalid")
  else none

/-- Outcome of dispatching one request to one path operation: a
binder-level validation failure, an HTTP error raised by a dependency,
or the handler actually running. -/
inductive Outcome where
  | validationFailure (errs : List ValidationError)
  | httpError (status : Nat) (detail : String)
  | handlerRan (route : String)
  deriving Repr, DecidableEq

/-- The declared input of `get_query_token`: a required string query
parameter named `token` with no default. -/
def tokenFieldSpec : FieldSpec :=
  ⟨"token", .query, .string, true, none, noConstraints, true⟩

/-- The declared input of `get_token_header`: a required string header
parameter declared `x_token`, matched on the wire as `x-token`. -/
def xTokenFieldSpec : FieldSpec :=
  ⟨"x_token", .header, .string, true, none, noConstraints, true⟩

/-- Modelled from the spec: one dependency resolver: its single
declared input field and the check the dependency function performs
on the bound value, either raising an HTTP error (status, detail) or
succeeding. -/
structure Dep where
  fspec : FieldSpec
  check : String → Option (Nat × String)

/-- The application-level dependency of `app/main.py`. -/
def tokenDep : Dep := ⟨tokenFieldSpec, get_query_token⟩

/-- The router-level dependency of `app/routers/items.py` and of the
admin inclusion in `app/main.py`. -/
def xTokenDep : Dep := ⟨xTokenFieldSpec, get_token_header⟩

/-- Modelled from the spec: solving a route's dependency list in
declaration order.  A dependency whose input fails to bind contributes
its binder errors to the collected list and solving continues with the
remaining dependencies (every field-level error from every field is
collected, not just the first); a dependency whose input binds is
invoked, and an HTTP error it raises propagates immediately, aborting
the remaining dependencies. -/
def solveDeps (req : RawRequest) : List Dep → List ValidationError →
    Except (Nat × String) (List ValidationError)
  | [], errs => .ok errs
  | d :: ds, errs =>
      match bindField d.fspec req with
      | (e :: es, _) => solveDeps req ds (errs ++ (e :: es))
      | ([], .val (.str s)) =>
          match d.check s with
          | some p => .error p
          | none => solveDeps req ds errs
      | ([], _) => solveDeps req ds errs

/-- One path operation of the composed application: its handler name
and its router- and operation-level dependencies (beyond the
application-level ones). -/
structure Route where
  rname : String
  deps : List Dep

/-- The path operation added directly on the app in `app/main.py`. -/
def rootRoute : Route := ⟨"root", []⟩

/-- One of the path operations of `app/routers/items.py`, included in
`app/main.py` and carrying the router-level `get_token_header`
dependency. -/
def readItemsRoute : Route := ⟨"read_items", [xTokenDep]⟩

/-- Modelled from the spec: `app/main.py` includes the admin router of
`app/internal/admin.py`, a module absent from the sources; its path
operations are modelled as a single operation carrying the
`get_token_header` dependency that `app/main.py` attaches at
inclusion. -/
def adminRoute : Route := ⟨"admin_op", [xTokenDep]⟩

/-- Embeds the composed application of `app/main.py`: the root path
operation, the routes included from `app/routers/users.py`, the
routes included from `app/routers/items.py` (which all carry the
router-level `get_token_header` dependency) and the admin inclusion. -/
def appRoutes : List Route :=
  rootRoute ::
  [⟨"read_users", []⟩, ⟨"read_user_me", []⟩, ⟨"read_user", []⟩,
   readItemsRoute, ⟨"read_item", [xTokenDep]⟩,
   ⟨"update_item", [xTokenDep]⟩, adminRoute]

/-- Modelled from the spec: dispatching a request to a path operation
solves the application-level dependency first and then the route's own
dependencies, collecting every dependency's binder errors; the
collected non-empty error list is a validation failure, an HTTP error
raised by an invoked dependency is returned as such, and the handler
runs only when every dependency succeeded with no error. -/
def dispatch (r : Route) (req : RawRequest) : Outcome :=
  match solveDeps req (tokenDep :: r.deps) [] with
  | .error p => .httpError p.1 p.2
  | .ok [] => .handlerRan r.rname
  | .ok (e :: es) => .validationFailure (e :: es)

end BiggerApp

/-- The schema of the concrete scenario of claim C2: a required integer
path field `id` (as in `6-pp_numeric_validations.py`) and an optional
string query field `q` with minimum length 3 (as in
`5-qp_string_validations.py`). -/
def idFieldC2 : FieldSpec := ⟨"id", .path, .integer, true, none, noConstraints, true⟩

/-- The optional string query field `q` with `min_length=3`. -/
def qFieldC2 : FieldSpec :=
  ⟨"q", .query, .string, false, none, ⟨some 3, none, none, none, none, none⟩, true⟩

/-- The two-field schema of the concrete scenario of claim C2. -/
def schemaC2 : List FieldSpec := [idFieldC2, qFieldC2]

/-- Request with path `id="7"` and no query. -/
def reqC2a : RawRequest := ⟨[("id", "7")], [], [], []⟩

/-- Request with path `id="abc"` and no query. -/
def reqC2b : RawRequest := ⟨[("id", "abc")], [], [], []⟩

/-- Request with path `id="7"` and query `q="ab"`. -/
def reqC2c : RawRequest := ⟨[("id", "7")], [("q", "ab")], [], []⟩

/-- Claim C2: for the schema with a required integer path field `id`
and an optional string query field `q` of minimum length 3: binding
path `id="7"` with no query succeeds with `id` bound to the integer 7
and `q` bound to the explicit absent marker; binding path `id="abc"`
fails with exactly one `TYPE_ERROR` at path `id`; binding path
`id="7"` with query `q="ab"` fails with exactly one `RANGE_ERROR` at
path `q`. -/
theorem bind_concrete_id_q_scenario :
    bindRequest schemaC2 reqC2a = .ok [("id", .val (.int 7)), ("q", .absent)] ∧
    bindRequest schemaC2 reqC2b =
      .error [⟨"id", .TYPE_ERROR, "value is not a valid integer"⟩] ∧
    bindRequest schemaC2 reqC2c =
      .error [⟨"q", .RANGE_ERROR, "ensure this value has at least 3 characters"⟩] :=
  ⟨rfl, rfl, rfl⟩

/-- The resolver chain of claim C8: node 1 is A, node 2 is B depending
on A, node 3 is C depending on B. -/
def chainGraph : List Resolver := [⟨1, []⟩, ⟨2, [1]⟩, ⟨3, [2]⟩]

/-- Claim C8: for the resolver graph where C depends on B and B
depends on A, one request resolving C resolves each of A, B, C exactly
once, in dependency order (A before B before C), and after the request
completes the release steps run in reverse dependency order C, B, A on
both exit paths (handler success and handler failure); a request
needing both B and C still resolves B only once, reusing its value. -/
theorem resolver_chain_once_and_reverse_release :
    runRequest chainGraph [3] true =
      [.resolve 1, .resolve 2, .resolve 3, .handlerRun,
       .release 3, .release 2, .release 1] ∧
    runRequest chainGraph [3] false =
      [.resolve 1, .resolve 2, .resolve 3, .handlerFailed,
       .release 3, .release 2, .release 1] ∧
    runRequest chainGraph [2, 3] true =
      [.resolve 1, .resolve 2, .resolve 3, .handlerRun,
       .release 3, .release 2, .release 1] ∧
    ((runRequest chainGraph [3] true).count (.resolve 1) = 1 ∧
     (runRequest chainGraph [3] true).count (.resolve 2) = 1 ∧
     (runRequest chainGraph [3] true).count (.resolve 3) = 1) := by
  decide

/-- Every constraint-violation error of a field names that field's
path. -/
lemma checkConstraints_path (f : FieldSpec) (v : JVal) :
    ∀ e ∈ checkConstraints f v, e.path = f.name := by
  intro e he
  cases v <;> simp only [checkConstraints, List.mem_append] at he
  case str s =>
    rcases he with h | h <;> (repeat' split at h) <;> simp_all
  case int n =>
    rcases he with ((h | h) | h) | h <;> (repeat' split at h) <;> simp_all
  all_goals cases he

/-- Every coercion error of a field names that field's path. -/
lemma coerceVals_path (f : FieldSpec) (v : String) (rest : List String)
    (es : List ValidationError) (hc : coerceVals f v rest = .error es) :
    ∀ e ∈ es, e.path = f.name := by
  intro e he
  unfold coerceVals at hc
  split at hc
  · simp at hc
  · split at hc
    · simp at hc
    · rw [Except.error.injEq] at hc
      subst hc
      rw [List.mem_singleton] at he
      subst he
      rfl
  · split at hc
    · simp at hc
    · rw [Except.error.injEq] at hc
      subst hc
      rw [List.mem_singleton] at he
      subst he
      rfl
  · simp at hc
  · simp at hc

/-- Every field-level error produced by binding a field names that
field's path. -/
lemma bindField_errs_path (f : FieldSpec) (req : RawRequest) :
    ∀ e ∈ (bindField f req).1, e.path = f.name := by
  intro e he
  unfold bindField at he
  split at he
  · split at he
    · simp_all
    · split at he <;> simp_all
  · split at he
    · rename_i es heq
      exact coerceVals_path f _ _ es heq e he
    · rename_i jv heq
      split at he
      · simp_all
      · rename_i e0 es0 hck
        refine checkConstraints_path f jv e ?_
        rw [hck]
        simpa using he

/-- A field whose name differs contributes no error whose path names
the given field. -/
lemma countP_fieldErrors_zero (g : FieldSpec) (req : RawRequest) (nm : String)
    (h : g.name ≠ nm) :
    (fieldErrors g req).countP (fun e => e.path == nm) = 0 := by
  apply List.countP_eq_zero.2
  intro e he
  have hp := bindField_errs_path g req e he
  simp [hp, h]

/-- Binding a required field with no default and no extracted value
yields exactly the one `MISSING` error for that field. -/
lemma fieldErrors_missing (f : FieldSpec) (req : RawRequest)
    (hreq : f.required = true) (hdef : f.default = none)
    (habs : extractRaw f req = []) :
    fieldErrors f req = [⟨f.name, .MISSING, "field required"⟩] := by
  simp [fieldErrors, bindField, habs, hdef, hreq]

/-- In the aggregated error list of a schema with unique field names,
the errors whose path names a given field are exactly that field's own
errors. -/
lemma countP_flatten_eq_own (req : RawRequest) :
    ∀ (schema : List FieldSpec) (f : FieldSpec), f ∈ schema →
      (schema.map (fun g => g.name)).Nodup →
      ((schema.map (fun g => fieldErrors g req)).flatten).countP (fun e => e.path == f.name) =
        (fieldErrors f req).countP (fun e => e.path == f.name) := by
  intro schema
  induction schema with
  | nil => intro f h; cases h
  | cons g rest ih =>
      intro f hmem hnod
      rw [List.map_cons] at hnod
      simp only [List.map_cons, List.flatten_cons, List.countP_append]
      rcases List.mem_cons.1 hmem with rfl | hf
      · have hz : ((rest.map (fun g => fieldErrors g req)).flatten).countP
            (fun e => e.path == f.name) = 0 := by
          apply List.countP_eq_zero.2
          intro e he
          rcases List.mem_flatten.1 he with ⟨l, hl, hel⟩
          rcases List.mem_map.1 hl with ⟨g', hg', rfl⟩
          have hp := bindField_errs_path g' req e hel
          have hne : g'.name ≠ f.name := by
            intro heq
            exact (List.nodup_cons.1 hnod).1 (List.mem_map.2 ⟨g', hg', heq⟩)
          simp [hp, hne]
        rw [hz]
        omega
      · have hg : g.name ≠ f.name := by
          intro heq
          exact (List.nodup_cons.1 hnod).1
            (heq ▸ List.mem_map.2 ⟨f, hf, rfl⟩)
        rw [countP_fieldErrors_zero g req f.name hg,
          ih f hf (List.nodup_cons.1 hnod).2]
        omega

/-- Claim C1: for every schema and raw request, binding a request that
contains no value for a required field with no default yields an error
result that is the full ordered concatenation of every field's errors
(no short-circuit), among which exactly one error's dotted path names
that field and that error is the `MISSING` error; and whenever no
field has any error, binding yields the fully populated bound tree. -/
theorem binder_missing_required_no_short_circuit
    (schema : List FieldSpec) (req : RawRequest) (f : FieldSpec)
    (hmem : f ∈ schema) (hnames : (schema.map (fun g => g.name)).Nodup)
    (hreq : f.required = true) (hdef : f.default = none)
    (habs : extractRaw f req = []) :
    bindRequest schema req = .error ((schema.map (fun g => fieldErrors g req)).flatten) ∧
    ((schema.map (fun g => fieldErrors g req)).flatten).countP
      (fun e => e.path == f.name) = 1 ∧
    (⟨f.name, .MISSING, "field required"⟩ : ValidationError) ∈
      (schema.map (fun g => fieldErrors g req)).flatten ∧
    (∀ (schema2 : List FieldSpec) (req2 : RawRequest),
      (schema2.map (fun g => fieldErrors g req2)).flatten = [] →
      bindRequest schema2 req2 =
        .ok (schema2.map (fun g => (g.name, (bindField g req2).2)))) := by
  have hf := fieldErrors_missing f req hreq hdef habs
  have hm : (⟨f.name, .MISSING, "field required"⟩ : ValidationError) ∈
      (schema.map (fun g => fieldErrors g req)).flatten :=
    List.mem_flatten.2 ⟨fieldErrors f req, List.mem_map.2 ⟨f, hmem, rfl⟩,
      by rw [hf]; exact List.mem_singleton.2 rfl⟩
  refine ⟨?_, ?_, hm, ?_⟩
  · have hne : ¬ ((schema.map (fun g => fieldErrors g req)).flatten).isEmpty = true := by
      intro h0
      rw [List.isEmpty_iff] at h0
      rw [h0] at hm
      exact absurd hm (List.not_mem_nil _)
    simp only [bindRequest]
    rw [if_neg hne]
  · rw [countP_flatten_eq_own req schema f hmem hnames, hf]
    simp
  · intro schema2 req2 h0
    simp [bindRequest, h0]

/-- A further required string query field used by the closed instance
of claim C1 (the `needy` parameter of `3-query_parameters.py`). -/
def needyFieldW : FieldSpec := ⟨"needy", .query, .string, true, none, noConstraints, true⟩

/-- Witness for claim C1: a schema with two required fields and a
request providing neither yields both `MISSING` errors in order, with
exactly one of them at path `id`. -/
theorem binder_missing_required_no_short_circuit_witness :
    bindRequest [idFieldC2, needyFieldW] ⟨[], [], [], []⟩ =
      .error [⟨"id", .MISSING, "field required"⟩, ⟨"needy", .MISSING, "field required"⟩] ∧
    (([idFieldC2, needyFieldW].map
        (fun g => fieldErrors g ⟨[], [], [], []⟩)).flatten).countP
      (fun e => e.path == "id") = 1 := by
  have h := binder_missing_required_no_short_circuit [idFieldC2, needyFieldW]
    ⟨[], [], [], []⟩ idFieldC2 (by decide) (by decide) rfl rfl rfl
  exact ⟨h.1.trans rfl, h.2.1⟩

/-- Claim C3: for every boolean-typed field with one extracted text,
any letter-case variant of "true", "1", "yes", "on" binds to `true`,
any letter-case variant of "false", "0", "no", "off" binds to `false`,
and any text outside this fixed vocabulary yields a `TYPE_ERROR`
validation error. -/
theorem boolean_vocabulary_binding
    (f : FieldSpec) (req : RawRequest) (s : String)
    (hty : f.semanticType = .boolean) (hex : extractRaw f req = [s]) :
    (trueWords.contains (lowerStr s) = true →
      bindField f req = ([], .val (.bool true))) ∧
    (falseWords.contains (lowerStr s) = true →
      bindField f req = ([], .val (.bool false))) ∧
    (trueWords.contains (lowerStr s) = false →
      falseWords.contains (lowerStr s) = false →
      bindField f req =
        ([⟨f.name, .TYPE_ERROR, "value could not be parsed to a boolean"⟩], .absent)) := by
  refine ⟨fun h1 => ?_, fun h1 => ?_, fun h1 h2 => ?_⟩
  · have h1m : lowerStr s ∈ trueWords := by simpa using h1
    simp [bindField, hex, coerceVals, hty, parseBool, h1m, checkConstraints]
  · have h1m : lowerStr s ∈ falseWords := by simpa using h1
    have h1t : lowerStr s ∉ trueWords := by
      rcases (by simpa [falseWords] using h1m :
          lowerStr s = "false" ∨ lowerStr s = "0" ∨ lowerStr s = "no" ∨
            lowerStr s = "off") with h | h | h | h <;>
        simp [h, trueWords]
    simp [bindField, hex, coerceVals, hty, parseBool, h1m, h1t, checkConstraints]
  · have h1m : lowerStr s ∉ trueWords := by simpa using h1
    have h2m : lowerStr s ∉ falseWords := by simpa using h2
    simp [bindField, hex, coerceVals, hty, parseBool, h1m, h2m]

/-- The boolean query field `short` of `3-query_parameters.py`. -/
def shortField : FieldSpec := ⟨"short", .query, .boolean, false, none, noConstraints, true⟩

/-- Witness for claim C3: `short=YES` binds to `true`, `short=oFF`
binds to `false`, `short=2` yields a `TYPE_ERROR`. -/
theorem boolean_vocabulary_binding_witness :
    bindField shortField ⟨[], [("short", "YES")], [], []⟩ = ([], .val (.bool true)) ∧
    bindField shortField ⟨[], [("short", "oFF")], [], []⟩ = ([], .val (.bool false)) ∧
    bindField shortField ⟨[], [("short", "2")], [], []⟩ =
      ([⟨"short", .TYPE_ERROR, "value could not be parsed to a boolean"⟩], .absent) := by
  refine ⟨?_, ?_, ?_⟩
  · exact (boolean_vocabulary_binding shortField ⟨[], [("short", "YES")], [], []⟩ "YES"
      rfl rfl).1 (by decide)
  · exact (boolean_vocabulary_binding shortField ⟨[], [("short", "oFF")], [], []⟩ "oFF"
      rfl rfl).2.1 (by decide)
  · exact (boolean_vocabulary_binding shortField ⟨[], [("short", "2")], [], []⟩ "2"
      rfl rfl).2.2 (by decide) (by decide)

/-- Claim C5: for every set-typed field whose extraction yields at
least one value, the bound set is the de-duplication of the extracted
occurrences: it is duplicate-free, holds exactly the values that
occur, and its size is the number of distinct values among the
occurrences, not the number of occurrences. -/
theorem set_binding_distinct_size
    (f : FieldSpec) (req : RawRequest) (v : String) (rest : List String)
    (hty : f.semanticType = .setOfString) (hex : extractRaw f req = v :: rest) :
    bindField f req = ([], .val (.strList (v :: rest).dedup)) ∧
    (v :: rest).dedup.length = (v :: rest).toFinset.card ∧
    (v :: rest).dedup.Nodup ∧
    (∀ x, x ∈ (v :: rest).dedup ↔ x ∈ v :: rest) := by
  refine ⟨?_, (List.card_toFinset _).symm, List.nodup_dedup _, fun x => List.mem_dedup⟩
  simp [bindField, hex, coerceVals, hty, checkConstraints]

/-- A set-typed query field collecting a repeated key. -/
def tagsSetField : FieldSpec := ⟨"tags", .query, .setOfString, false, none, noConstraints, true⟩

/-- Witness for claim C5: the repeated query key
`tags=a&tags=b&tags=a` (three occurrences, two distinct values) binds
to a set of size two. -/
theorem set_binding_distinct_size_witness :
    bindField tagsSetField ⟨[], [("tags", "a"), ("tags", "b"), ("tags", "a")], [], []⟩ =
      ([], .val (.strList (["a", "b", "a"] : List String).dedup)) ∧
    (["a", "b", "a"] : List String).dedup.length = 2 := by
  refine ⟨?_, by decide⟩
  exact (set_binding_distinct_size tagsSetField
    ⟨[], [("tags", "a"), ("tags", "b"), ("tags", "a")], [], []⟩ "a" ["b", "a"]
    rfl rfl).1

/-- Claim C4: shaping a value under the exclude-unset policy emits
exactly the fields the producer explicitly set: when every field of
the value is declared by the shape, the shaped output's field names
are precisely the names of the explicitly set fields, in order. -/
theorem exclude_unset_emits_exactly_set
    (rs : ResponseShape) (v : List FieldVal)
    (hdecl : ∀ fv ∈ v, rs.fields.contains fv.name = true) :
    (shape rs v .excludeUnset).map Prod.fst =
      (v.filter (fun fv => fv.explicitlySet)).map FieldVal.name := by
  unfold shape
  rw [List.filter_eq_self.2 hdecl]
  rw [show keepField .excludeUnset = (fun fv => fv.explicitlySet) from rfl]
  rw [List.map_map]
  rfl

/-- The declared shape of the `Item` response model of
`12-response_model.py`. -/
def itemShape : ResponseShape := ⟨["name", "description", "price", "tax", "tags"]⟩

/-- The stored item `foo` of `12-response_model.py` as a tracked
value: only `name` and `price` were explicitly provided, the other
fields were left at their declared defaults. -/
def fooTracked : List FieldVal :=
  [⟨"name", .str "Foo", true⟩, ⟨"description", .null, false⟩,
   ⟨"price", .num 50.2, true⟩, ⟨"tax", .num 10.5, false⟩,
   ⟨"tags", .strList [], false⟩]

/-- Witness for claim C4: shaping `foo` (only `name` and `price`
explicitly set) under exclude-unset yields exactly the fields `name`
and `price`. -/
theorem exclude_unset_emits_exactly_set_witness :
    (shape itemShape fooTracked .excludeUnset).map Prod.fst = ["name", "price"] ∧
    shape itemShape fooTracked .excludeUnset =
      [("name", .str "Foo"), ("price", .num 50.2)] := by
  have h := exclude_unset_emits_exactly_set itemShape fooTracked (by decide)
  exact ⟨h.trans rfl, rfl⟩

/-- The declared output shape `UserOut` of `12-response_model.py`,
which omits the password. -/
def userOutShape : ResponseShape := ⟨["username", "email", "full_name"]⟩

/-- A handler return value carrying the undeclared `password` field,
as returned by `create_user` in `12-response_model.py`. -/
def userInValue : List FieldVal :=
  [⟨"username", .str "dave", true⟩, ⟨"password", .str "secret123", true⟩,
   ⟨"email", .str "dave@example.com", true⟩, ⟨"full_name", .null, false⟩]

/-- Claim C6: for every response shape, value and policy, every field
of the shaped output is a field declared by the shape under its
declared name; under include-only the output's fields lie in the given
set, under exclude the output contains no field of the given set; in
particular shaping a value carrying an undeclared `password` field
against the password-free shape yields an output without it. -/
theorem shaping_never_invents_fields :
    (∀ (rs : ResponseShape) (v : List FieldVal) (p : Policy),
      ((shape rs v p).map Prod.fst).all (fun n => rs.fields.contains n) = true) ∧
    (∀ (rs : ResponseShape) (v : List FieldVal) (names : List String),
      ((shape rs v (.includeOnly names)).map Prod.fst).all
        (fun n => names.contains n) = true) ∧
    (∀ (rs : ResponseShape) (v : List FieldVal) (names : List String),
      ((shape rs v (.excludeNames names)).map Prod.fst).all
        (fun n => !(names.contains n)) = true) ∧
    ((shape userOutShape userInValue .includeAll).map Prod.fst).contains "password" = false := by
  refine ⟨?_, ?_, ?_, by decide⟩
  · intro rs v p
    rw [List.all_eq_true]
    intro n hn
    simp only [shape, List.map_map] at hn
    rcases List.mem_map.1 hn with ⟨fv, hfv, rfl⟩
    exact (List.mem_filter.1 (List.mem_filter.1 hfv).1).2
  · intro rs v names
    rw [List.all_eq_true]
    intro n hn
    simp only [shape, List.map_map] at hn
    rcases List.mem_map.1 hn with ⟨fv, hfv, rfl⟩
    simpa [keepField] using (List.mem_filter.1 hfv).2
  · intro rs v names
    rw [List.all_eq_true]
    intro n hn
    simp only [shape, List.map_map] at hn
    rcases List.mem_map.1 hn with ⟨fv, hfv, rfl⟩
    simpa [keepField] using (List.mem_filter.1 hfv).2

/-- Claim C7: for every header-sourced field, extraction matches the
wire name case-insensitively, with underscores of the declared name
matching hyphens by default; when the conversion is disabled for the
field, only the underscored name itself matches. -/
theorem header_extraction_name_matching
    (f : FieldSpec) (req : RawRequest) (hsrc : f.source = .header) :
    (f.convertUnderscores = true →
      extractRaw f req =
        (req.headers.filter
          (fun kv => lowerStr kv.1 == lowerStr (hyphenate f.name))).map Prod.snd) ∧
    (f.convertUnderscores = false →
      extractRaw f req =
        (req.headers.filter
          (fun kv => lowerStr kv.1 == lowerStr f.name)).map Prod.snd) := by
  constructor <;> intro hconv <;> simp [extractRaw, hsrc, wireName, hconv]

/-- The `user_agent` header field of
`11-cookie_headers_parameters.py` (default conversion on). -/
def userAgentField : FieldSpec :=
  ⟨"user_agent", .header, .string, false, none, noConstraints, true⟩

/-- The `strange_header` field of `11-cookie_headers_parameters.py`,
declared with `convert_underscores=False`. -/
def strangeField : FieldSpec :=
  ⟨"strange_header", .header, .string, false, none, noConstraints, false⟩

/-- Witness for claim C7: `user_agent` extracts the wire header
`User-Agent` (hyphen, different case); `strange_header` with
conversion disabled does not match `Strange-Header` but does match
`Strange_Header`. -/
theorem header_extraction_name_matching_witness :
    extractRaw userAgentField ⟨[], [], [("User-Agent", "curl")], []⟩ = ["curl"] ∧
    extractRaw strangeField ⟨[], [], [("Strange-Header", "x")], []⟩ = [] ∧
    extractRaw strangeField ⟨[], [], [("Strange_Header", "x")], []⟩ = ["x"] := by
  refine ⟨?_, ?_, ?_⟩
  · exact ((header_extraction_name_matching userAgentField
      ⟨[], [], [("User-Agent", "curl")], []⟩ rfl).1 rfl).trans rfl
  · exact ((header_extraction_name_matching strangeField
      ⟨[], [], [("Strange-Header", "x")], []⟩ rfl).2 rfl).trans rfl
  · exact ((header_extraction_name_matching strangeField
      ⟨[], [], [("Strange_Header", "x")], []⟩ rfl).2 rfl).trans rfl

/-- Reading one field of the result of `copyUpdate`: a field not
explicitly provided by the request keeps the stored value. -/
lemma copyUpdate_get_unset (stored : BodyUpdates.Item) (r : BodyUpdates.RequestItem)
    (fd : BodyUpdates.ItemField) (h : r.fieldsSet.contains fd = false) :
    (BodyUpdates.copyUpdate stored r).get fd = stored.get fd := by
  have hm : fd ∉ r.fieldsSet := by simpa using h
  cases fd <;> simp [BodyUpdates.copyUpdate, BodyUpdates.Item.get, hm]

/-- Reading one field of the result of `copyUpdate`: a field
explicitly provided by the request takes the request's value. -/
lemma copyUpdate_get_set (stored : BodyUpdates.Item) (r : BodyUpdates.RequestItem)
    (fd : BodyUpdates.ItemField) (h : r.fieldsSet.contains fd = true) :
    (BodyUpdates.copyUpdate stored r).get fd = r.item.get fd := by
  have hm : fd ∈ r.fieldsSet := by simpa using h
  cases fd <;> simp [BodyUpdates.copyUpdate, BodyUpdates.Item.get, hm]

/-- Parsing the JSON encoding of an item recovers the item. -/
lemma ofDict_toDict (it : BodyUpdates.Item) :
    BodyUpdates.Item.ofDict it.toDict = it := by
  rcases it with ⟨n, d, p, t, g⟩
  cases n <;> cases d <;> cases p <;> rfl

/-- Storing under an existing key makes lookup of that key return the
stored value. -/
lemma lookup_storeSet (items : List (String × List (String × JVal)))
    (k : String) (v : List (String × JVal))
    (h : (items.lookup k).isSome = true) :
    (BodyUpdates.storeSet items k v).lookup k = some v := by
  unfold BodyUpdates.storeSet
  rw [if_pos h]
  induction items with
  | nil => simp [List.lookup] at h
  | cons p rest ih =>
      rcases p with ⟨a, b⟩
      by_cases hk : k = a
      · subst hk
        simp [List.map_cons, List.lookup_cons]
      · have hak : ¬(a = k) := fun hcontra => hk hcontra.symm
        have hka : (k == a) = false := by simpa using hk
        rw [List.lookup_cons] at h
        simp only [hka] at h
        simp only [List.map_cons, if_neg hak, List.lookup_cons, hka]
        exact ih h

/-- Claim C9: for every stored item and every request body that
explicitly sets only a subset of the model's fields, the PATCH handler
of `16-body_updates.py` stores and returns an item in which every
field not explicitly set keeps its stored value and every explicitly
set field takes the request's value; the stored encoding reads back as
exactly that item. -/
theorem patch_update_frame
    (items : List (String × List (String × JVal))) (item_id : String)
    (d : List (String × JVal)) (r : BodyUpdates.RequestItem)
    (hlook : items.lookup item_id = some d) :
    BodyUpdates.update_item items item_id r =
      some (BodyUpdates.storeSet items item_id
          (BodyUpdates.copyUpdate (BodyUpdates.Item.ofDict d) r).toDict,
        BodyUpdates.copyUpdate (BodyUpdates.Item.ofDict d) r) ∧
    (∀ fd, r.fieldsSet.contains fd = false →
      (BodyUpdates.copyUpdate (BodyUpdates.Item.ofDict d) r).get fd =
        (BodyUpdates.Item.ofDict d).get fd) ∧
    (∀ fd, r.fieldsSet.contains fd = true →
      (BodyUpdates.copyUpdate (BodyUpdates.Item.ofDict d) r).get fd = r.item.get fd) ∧
    BodyUpdates.Item.ofDict
        (BodyUpdates.copyUpdate (BodyUpdates.Item.ofDict d) r).toDict =
      BodyUpdates.copyUpdate (BodyUpdates.Item.ofDict d) r ∧
    (BodyUpdates.storeSet items item_id
        (BodyUpdates.copyUpdate (BodyUpdates.Item.ofDict d) r).toDict).lookup item_id =
      some (BodyUpdates.copyUpdate (BodyUpdates.Item.ofDict d) r).toDict := by
  refine ⟨?_, fun fd h => copyUpdate_get_unset _ r fd h,
    fun fd h => copyUpdate_get_set _ r fd h, ofDict_toDict _,
    lookup_storeSet items item_id _ (by rw [hlook]; rfl)⟩
  simp [BodyUpdates.update_item, hlook]

/-- Witness for claim C9: PATCHing the stored item `bar` with a body
that explicitly sets only `name` yields an item with the new name and
the stored description, price and tax (tax stays `20.2`, not the
request model's defaulted `10.5`). -/
theorem patch_update_frame_witness :
    (BodyUpdates.update_item BodyUpdates.itemsDB "bar"
        ⟨⟨some "Bar2", none, some 62, 10.5, []⟩, [.nameF]⟩).map Prod.snd =
      some ⟨some "Bar2", some "The bartenders", some 62, 20.2, []⟩ := by
  have h := patch_update_frame BodyUpdates.itemsDB "bar"
    [("name", .str "Bar"), ("description", .str "The bartenders"),
     ("price", .int 62), ("tax", .num 20.2)]
    ⟨⟨some "Bar2", none, some 62, 10.5, []⟩, [.nameF]⟩ rfl
  rw [h.1]
  rfl

/-- A multi-map's first value for a key is the head of the filtered
occurrence list the binder extracts. -/
lemma lookup_eq_filter_head (k : String) (l : List (String × String)) :
    l.lookup k = ((l.filter (fun kv => kv.1 == k)).map Prod.snd).head? := by
  induction l with
  | nil => rfl
  | cons p rest ih =>
      rcases p with ⟨a, b⟩
      by_cases hk : k = a
      · subst hk
        simp [List.lookup_cons, List.filter_cons]
      · have hak : (a == k) = false := by simpa using fun hcontra => hk hcontra.symm
        have hka : (k == a) = false := by simpa using hk
        rw [List.lookup_cons]
        simp [hka, List.filter_cons, hak, ih]

/-- Claim C10 as stated fails on the code: a request to the composed
application with no `token` query parameter at all is rejected by the
binder as a `MISSING` validation failure for the required dependency
parameter, not with the 400 "No Jessica token provided" error. -/
theorem app_missing_token_not_400 :
    BiggerApp.dispatch BiggerApp.rootRoute ⟨[], [], [], []⟩ =
      .validationFailure [⟨"token", .MISSING, "field required"⟩] ∧
    BiggerApp.dispatch BiggerApp.rootRoute ⟨[], [], [], []⟩ ≠
      .httpError 400 "No Jessica token provided" := by
  exact ⟨rfl, by decide⟩

/-- One solving step when the dependency's input fails to bind: the
binder errors are appended and solving continues with the remaining
dependencies. -/
lemma solveDeps_cons_binderr (req : RawRequest) (d : BiggerApp.Dep)
    (ds : List BiggerApp.Dep) (errs : List ValidationError)
    (e : ValidationError) (es : List ValidationError) (bnd : Bound)
    (hb : bindField d.fspec req = (e :: es, bnd)) :
    BiggerApp.solveDeps req (d :: ds) errs =
      BiggerApp.solveDeps req ds (errs ++ (e :: es)) := by
  simp only [BiggerApp.solveDeps]
  rw [hb]

/-- One solving step when the dependency's input binds and the invoked
dependency raises: the HTTP error propagates immediately. -/
lemma solveDeps_cons_raise (req : RawRequest) (d : BiggerApp.Dep)
    (ds : List BiggerApp.Dep) (errs : List ValidationError) (s : String)
    (p : Nat × String)
    (hb : bindField d.fspec req = ([], .val (.str s)))
    (hc : d.check s = some p) :
    BiggerApp.solveDeps req (d :: ds) errs = .error p := by
  simp only [BiggerApp.solveDeps]
  rw [hb]
  simp [hc]

/-- Solving never drops an already-collected error: every error in
the accumulator is in the returned collected list. -/
lemma solveDeps_ok_mono (req : RawRequest) :
    ∀ (ds : List BiggerApp.Dep) (errs errs2 : List ValidationError),
      BiggerApp.solveDeps req ds errs = .ok errs2 → ∀ e ∈ errs, e ∈ errs2 := by
  intro ds
  induction ds with
  | nil =>
      intro errs errs2 h e he
      simp only [BiggerApp.solveDeps] at h
      rw [Except.ok.injEq] at h
      exact h ▸ he
  | cons d rest ih =>
      intro errs errs2 h e he
      simp only [BiggerApp.solveDeps] at h
      split at h
      · exact ih _ _ h e (List.mem_append.2 (Or.inl he))
      · split at h
        · simp at h
        · exact ih _ _ h e he
      · exact ih _ _ h e he

/-- An HTTP error returned by solving was raised by the check of one
of the listed dependencies on some bound value. -/
lemma solveDeps_error_from_check (req : RawRequest) :
    ∀ (ds : List BiggerApp.Dep) (errs : List ValidationError) (p : Nat × String),
      BiggerApp.solveDeps req ds errs = .error p →
      ∃ d ∈ ds, ∃ s, d.check s = some p := by
  intro ds
  induction ds with
  | nil =>
      intro errs p h
      simp only [BiggerApp.solveDeps] at h
      simp at h
  | cons d rest ih =>
      intro errs p h
      simp only [BiggerApp.solveDeps] at h
      split at h
      · obtain ⟨d2, hd2, hs⟩ := ih _ _ h
        exact ⟨d2, List.mem_cons_of_mem d hd2, hs⟩
      · rename_i s heq
        split at h
        · rename_i p2 hc
          rw [Except.error.injEq] at h
          subst h
          exact ⟨d, List.mem_cons_self d rest, s, hc⟩
        · obtain ⟨d2, hd2, hs⟩ := ih _ _ h
          exact ⟨d2, List.mem_cons_of_mem d hd2, hs⟩
      · obtain ⟨d2, hd2, hs⟩ := ih _ _ h
        exact ⟨d2, List.mem_cons_of_mem d hd2, hs⟩

/-- Every path operation of the composed application carries either no
route-level dependency or exactly the `get_token_header` one. -/
lemma appRoutes_deps_shape (r : BiggerApp.Route) (hr : r ∈ BiggerApp.appRoutes) :
    r.deps = [] ∨ r.deps = [BiggerApp.xTokenDep] := by
  simp [BiggerApp.appRoutes, BiggerApp.rootRoute, BiggerApp.readItemsRoute,
    BiggerApp.adminRoute] at hr
  rcases hr with rfl | rfl | rfl | rfl | rfl | rfl | rfl | rfl <;> simp

/-- An HTTP error raised by `get_token_header` always carries the
`X-Token header invalid` detail, never the Jessica one. -/
lemma get_token_header_detail (s : String) (p : Nat × String)
    (h : BiggerApp.get_token_header s = some p) :
    p = (400, "X-Token header invalid") := by
  unfold BiggerApp.get_token_header at h
  split at h
  · rw [Option.some.injEq] at h
    exact h.symm
  · simp at h

/-- Claim C10, amended: for every path operation of the composed
application in `app/main.py` (the root operation and every operation
added via the included routers, the admin inclusion among them):
a request whose first `token` query value is present but not equal to
"jessica" is rejected with status 400 and detail "No Jessica token
provided" and the handler does not run; a request with no `token`
query parameter is never answered by the handler and is not rejected
with that 400 detail: whenever it is rejected with a validation
failure, the binder's `MISSING` error for `token` is among the
collected errors (a route dependency with validly bound input may
instead raise its own HTTP error, which is then returned). -/
theorem app_token_dependency_guards_all_routes
    (r : BiggerApp.Route) (hr : r ∈ BiggerApp.appRoutes) (req : RawRequest) :
    (∀ t, req.queryParams.lookup "token" = some t → t ≠ "jessica" →
      BiggerApp.dispatch r req = .httpError 400 "No Jessica token provided" ∧
      ∀ nm, BiggerApp.dispatch r req ≠ .handlerRan nm) ∧
    (req.queryParams.lookup "token" = none →
      (∀ nm, BiggerApp.dispatch r req ≠ .handlerRan nm) ∧
      BiggerApp.dispatch r req ≠ .httpError 400 "No Jessica token provided" ∧
      (∀ errs, BiggerApp.dispatch r req = .validationFailure errs →
        (⟨"token", .MISSING, "field required"⟩ : ValidationError) ∈ errs)) := by
  constructor
  · intro t ht hne
    rw [lookup_eq_filter_head] at ht
    obtain ⟨rest0, hrest⟩ :
        ∃ rest0, (req.queryParams.filter (fun kv => kv.1 == "token")).map Prod.snd =
          t :: rest0 := by
      cases hL : (req.queryParams.filter (fun kv => kv.1 == "token")).map Prod.snd with
      | nil => rw [hL] at ht; simp at ht
      | cons a l =>
          rw [hL] at ht
          simp only [List.head?_cons, Option.some.injEq] at ht
          exact ⟨l, by rw [ht]⟩
    have hE : extractRaw BiggerApp.tokenFieldSpec req = t :: rest0 := hrest
    have hb : bindField BiggerApp.tokenFieldSpec req = ([], .val (.str t)) := by
      unfold bindField
      rw [hE]
      rfl
    have hc : BiggerApp.get_query_token t = some (400, "No Jessica token provided") := by
      simp [BiggerApp.get_query_token, hne]
    have hs : BiggerApp.solveDeps req (BiggerApp.tokenDep :: r.deps) [] =
        .error (400, "No Jessica token provided") :=
      solveDeps_cons_raise req BiggerApp.tokenDep r.deps [] t _ hb hc
    have hd : BiggerApp.dispatch r req = .httpError 400 "No Jessica token provided" := by
      unfold BiggerApp.dispatch
      rw [hs]
    exact ⟨hd, fun nm => by rw [hd]; simp⟩
  · intro ht
    rw [lookup_eq_filter_head] at ht
    have hE : extractRaw BiggerApp.tokenFieldSpec req = [] :=
      List.head?_eq_none_iff.1 ht
    have hb : bindField BiggerApp.tokenFieldSpec req =
        ([⟨"token", .MISSING, "field required"⟩], .absent) := by
      unfold bindField
      rw [hE]
      rfl
    have hs : BiggerApp.solveDeps req (BiggerApp.tokenDep :: r.deps) [] =
        BiggerApp.solveDeps req r.deps [⟨"token", .MISSING, "field required"⟩] :=
      solveDeps_cons_binderr req BiggerApp.tokenDep r.deps [] _ [] _ hb
    cases hres : BiggerApp.solveDeps req r.deps
        [⟨"token", .MISSING, "field required"⟩] with
    | error p =>
        have hd : BiggerApp.dispatch r req = .httpError p.1 p.2 := by
          unfold BiggerApp.dispatch
          rw [hs, hres]
        obtain ⟨d, hdmem, s, hcheck⟩ := solveDeps_error_from_check req r.deps _ p hres
        have hp : p = (400, "X-Token header invalid") := by
          rcases appRoutes_deps_shape r hr with h0 | h0
          · rw [h0] at hdmem
            exact absurd hdmem (List.not_mem_nil d)
          · rw [h0] at hdmem
            rw [List.mem_singleton] at hdmem
            subst hdmem
            exact get_token_header_detail s p hcheck
        subst hp
        refine ⟨fun nm => by rw [hd]; simp, by rw [hd]; decide, fun errs heq => ?_⟩
        exact absurd (hd.symm.trans heq) (by simp)
    | ok errs2 =>
        have hmem : (⟨"token", .MISSING, "field required"⟩ : ValidationError) ∈ errs2 :=
          solveDeps_ok_mono req r.deps _ errs2 hres _ (List.mem_singleton.2 rfl)
        cases errs2 with
        | nil => exact absurd hmem (List.not_mem_nil _)
        | cons e0 es0 =>
            have hd : BiggerApp.dispatch r req = .validationFailure (e0 :: es0) := by
              unfold BiggerApp.dispatch
              rw [hs, hres]
            refine ⟨fun nm => by rw [hd]; simp, by rw [hd]; simp,
              fun errs heq => ?_⟩
            have heq2 : errs = e0 :: es0 := by
              have := hd.symm.trans heq
              simpa using this.symm
            rw [heq2]
            exact hmem

/-- Witness for the amended claim C10: on the root path operation, the
wrong token `pete` draws the 400 with detail "No Jessica token
provided"; a request without `token` draws the `MISSING` validation
failure; on the included items route, a request missing both `token`
and `x-token` collects both `MISSING` errors together; missing `token`
but carrying a wrong `x-token` draws the `X-Token header invalid`
400. -/
theorem app_token_dependency_guards_all_routes_witness :
    BiggerApp.dispatch BiggerApp.rootRoute ⟨[], [("token", "pete")], [], []⟩ =
      .httpError 400 "No Jessica token provided" ∧
    BiggerApp.dispatch BiggerApp.rootRoute ⟨[], [("q", "x")], [], []⟩ =
      .validationFailure [⟨"token", .MISSING, "field required"⟩] ∧
    BiggerApp.dispatch BiggerApp.readItemsRoute ⟨[], [], [], []⟩ =
      .validationFailure [⟨"token", .MISSING, "field required"⟩,
        ⟨"x_token", .MISSING, "field required"⟩] ∧
    BiggerApp.dispatch BiggerApp.readItemsRoute ⟨[], [], [("x-token", "bad")], []⟩ =
      .httpError 400 "X-Token header invalid" := by
  refine ⟨?_, rfl, rfl, rfl⟩
  exact ((app_token_dependency_guards_all_routes BiggerApp.rootRoute
    (List.mem_cons_self _ _) ⟨[], [("token", "pete")], [], []⟩).1 "pete"
    rfl (by decide)).1
